import Mathlib

/-!
Verification development for the `oai-wealth-management` supervisor example
(`src/oai_supervisor/main.py`): a multi-agent conversational routing loop
with a supervisor agent, a beneficiary agent and an investment agent,
account-scoped tools over shared `AccountContext`, and a hub-and-spoke
handoff graph.
-/

namespace OaiSupervisor

/-- The three agents constructed in `main.py`
(`supervisor_agent`, `beneficiary_agent`, `investment_agent`). -/
inductive AgentName
  | supervisor
  | beneficiary
  | investment
deriving DecidableEq, Repr, Fintype

/-- The six `@function_tool` names defined in `main.py`. -/
inductive ToolName
  | add_beneficiaries
  | list_beneficiaries
  | delete_beneficiaries
  | open_investment
  | list_investments
  | close_investment
deriving DecidableEq, Repr, Fintype

/-- Modelled from the spec: `common.account_context.AccountContext` is imported
by `main.py` but its module is not in the sources; the spec gives
`AccountContext: \x7b account_id: optional string \x7d`, initially unset. -/
structure AccountContext where
  account_id : Option String := none
deriving DecidableEq, Repr

/-- A beneficiary record held by the beneficiaries store: a generated id plus
the three caller-supplied fields. Ids are modelled as naturals drawn from a
per-store counter (the spec only requires freshly generated, unique ids). -/
structure BeneficiaryRecord where
  id : Nat
  first_name : String
  last_name : String
  relationship : String
deriving DecidableEq, Repr

/-- An investment-account record: a generated id plus name and balance
(the balance is a string in the tool signature of `main.py`). -/
structure InvestmentRecord where
  id : Nat
  name : String
  balance : String
deriving DecidableEq, Repr

/-- Modelled from the spec: `common.beneficiaries_manager.BeneficiariesManager`
is imported by `main.py` but its module is not in the sources; the spec gives a
CRUD store `mapping(account_id) -> ordered sequence of records` with freshly
generated ids. -/
structure BeneficiariesManager where
  store : String → List BeneficiaryRecord
  next_id : Nat

/-- A fresh beneficiaries store: every account maps to the empty sequence. -/
def BeneficiariesManager.init : BeneficiariesManager :=
  { store := fun _ => [], next_id := 0 }

/-- Modelled from the spec: `add(account_id, fields…) → assigns new id`;
the new record is appended to the account's ordered sequence. -/
def BeneficiariesManager.add_beneficiary (m : BeneficiariesManager)
    (account_id first_name last_name relationship : String) : BeneficiariesManager :=
  { store := fun a =>
      if a = account_id then
        m.store account_id ++ [⟨m.next_id, first_name, last_name, relationship⟩]
      else m.store a,
    next_id := m.next_id + 1 }

/-- Modelled from the spec: `list(account_id) → ordered sequence of records
(empty sequence, not an error, when account has none)`. -/
def BeneficiariesManager.list_beneficiaries (m : BeneficiariesManager)
    (account_id : String) : List BeneficiaryRecord :=
  m.store account_id

/-- Modelled from the spec: `delete(account_id, record_id) → removes matching
record`; per §7 the delete of a non-existent record is a manager failure. -/
def BeneficiariesManager.delete_beneficiary (m : BeneficiariesManager)
    (account_id : String) (beneficiary_id : Nat) :
    Except String BeneficiariesManager :=
  if (m.store account_id).any (fun r => r.id == beneficiary_id) then
    Except.ok
      { m with store := fun a =>
          if a = account_id then
            (m.store account_id).filter (fun r => !(r.id == beneficiary_id))
          else m.store a }
  else Except.error "beneficiary not found"

/-- Modelled from the spec:
`common.investment_account_manager.InvestmentAccountManager` is imported by
`main.py` but its module is not in the sources; same CRUD-store contract as the
beneficiaries manager. -/
structure InvestmentAccountManager where
  store : String → List InvestmentRecord
  next_id : Nat

/-- A fresh investment-accounts store. -/
def InvestmentAccountManager.init : InvestmentAccountManager :=
  { store := fun _ => [], next_id := 0 }

/-- Modelled from the spec: add an investment account with a freshly
generated id. -/
def InvestmentAccountManager.add_investment_account (m : InvestmentAccountManager)
    (account_id name balance : String) : InvestmentAccountManager :=
  { store := fun a =>
      if a = account_id then
        m.store account_id ++ [⟨m.next_id, name, balance⟩]
      else m.store a,
    next_id := m.next_id + 1 }

/-- Modelled from the spec: list the investment accounts of an account. -/
def InvestmentAccountManager.list_investment_accounts (m : InvestmentAccountManager)
    (account_id : String) : List InvestmentRecord :=
  m.store account_id

/-- Modelled from the spec: delete an investment account; deleting a
non-existent record is a manager failure. -/
def InvestmentAccountManager.delete_investment_account (m : InvestmentAccountManager)
    (account_id : String) (investment_id : Nat) :
    Except String InvestmentAccountManager :=
  if (m.store account_id).any (fun r => r.id == investment_id) then
    Except.ok
      { m with store := fun a =>
          if a = account_id then
            (m.store account_id).filter (fun r => !(r.id == investment_id))
          else m.store a }
  else Except.error "investment account not found"

/-- The mutable state a tool invocation can touch: the shared `AccountContext`
plus the two module-level manager stores of `main.py`
(`beneficiaries_mgr`, `investment_acct_mgr`). -/
structure WorldState where
  context : AccountContext
  beneficiaries_mgr : BeneficiariesManager
  investment_acct_mgr : InvestmentAccountManager

/-- The world at program start: fresh context, empty stores. -/
def initialWorld : WorldState :=
  { context := {}, beneficiaries_mgr := BeneficiariesManager.init,
    investment_acct_mgr := InvestmentAccountManager.init }

/-- What a tool invocation returns: read tools return a structured sequence of
records (`list` / `dict` in `main.py`), mutating tools return nothing. -/
inductive ToolResult
  | none_result
  | bene_list (records : List BeneficiaryRecord)
  | invest_map (records : List InvestmentRecord)
deriving DecidableEq, Repr

/-- `true` on the structured results, `false` on the empty return. -/
def ToolResult.isStructured : ToolResult → Bool
  | .none_result => false
  | _ => true

/-- The two read tools of `main.py` (the ones annotated with a return type);
the other four are mutating and return nothing. -/
def ToolName.isRead : ToolName → Bool
  | .list_beneficiaries => true
  | .list_investments => true
  | _ => false

/-- Tool `add_beneficiaries` of `main.py`: set `context.account_id`, then
`beneficiaries_mgr.add_beneficiary(...)`; no return value. -/
def add_beneficiaries (s : WorldState)
    (account_id first_name last_name relationship : String) :
    WorldState × Except String ToolResult :=
  let s := { s with context := { s.context with account_id := some account_id } }
  ({ s with beneficiaries_mgr :=
      s.beneficiaries_mgr.add_beneficiary account_id first_name last_name relationship },
   Except.ok ToolResult.none_result)

/-- Tool `list_beneficiaries` of `main.py`: set `context.account_id`, then
return `beneficiaries_mgr.list_beneficiaries(account_id)`. -/
def list_beneficiaries (s : WorldState) (account_id : String) :
    WorldState × Except String ToolResult :=
  let s := { s with context := { s.context with account_id := some account_id } }
  (s, Except.ok (ToolResult.bene_list (s.beneficiaries_mgr.list_beneficiaries account_id)))

/-- Tool `delete_beneficiaries` of `main.py`: set `context.account_id`, then
`beneficiaries_mgr.delete_beneficiary(...)`; a manager failure propagates out
of the tool body (the context mutation has already happened). -/
def delete_beneficiaries (s : WorldState) (account_id : String)
    (beneficiary_id : Nat) : WorldState × Except String ToolResult :=
  let s := { s with context := { s.context with account_id := some account_id } }
  match s.beneficiaries_mgr.delete_beneficiary account_id beneficiary_id with
  | Except.ok m => ({ s with beneficiaries_mgr := m }, Except.ok ToolResult.none_result)
  | Except.error e => (s, Except.error e)

/-- Tool `open_investment` of `main.py`: set `context.account_id`, then
`investment_acct_mgr.add_investment_account(...)`; no return value. -/
def open_investment (s : WorldState) (account_id name balance : String) :
    WorldState × Except String ToolResult :=
  let s := { s with context := { s.context with account_id := some account_id } }
  ({ s with investment_acct_mgr :=
      s.investment_acct_mgr.add_investment_account account_id name balance },
   Except.ok ToolResult.none_result)

/-- Tool `list_investments` of `main.py`: set `context.account_id`, then
return `investment_acct_mgr.list_investment_accounts(account_id)`. -/
def list_investments (s : WorldState) (account_id : String) :
    WorldState × Except String ToolResult :=
  let s := { s with context := { s.context with account_id := some account_id } }
  (s, Except.ok (ToolResult.invest_map (s.investment_acct_mgr.list_investment_accounts account_id)))

/-- Tool `close_investment` of `main.py`: set `context.account_id`, then
`investment_acct_mgr.delete_investment_account(...)`. -/
def close_investment (s : WorldState) (account_id : String)
    (investment_id : Nat) : WorldState × Except String ToolResult :=
  let s := { s with context := { s.context with account_id := some account_id } }
  match s.investment_acct_mgr.delete_investment_account account_id investment_id with
  | Except.ok m => ({ s with investment_acct_mgr := m }, Except.ok ToolResult.none_result)
  | Except.error e => (s, Except.error e)

/-- A fully applied tool call: the tool name together with its argument
values, exactly the parameter lists of the six tools in `main.py`
(`context` excluded — it is threaded separately). -/
inductive ToolCall
  | add_beneficiaries (account_id first_name last_name relationship : String)
  | list_beneficiaries (account_id : String)
  | delete_beneficiaries (account_id : String) (beneficiary_id : Nat)
  | open_investment (account_id name balance : String)
  | list_investments (account_id : String)
  | close_investment (account_id : String) (investment_id : Nat)
deriving DecidableEq, Repr

/-- The name of the tool a call invokes. -/
def ToolCall.toolName : ToolCall → ToolName
  | .add_beneficiaries _ _ _ _ => .add_beneficiaries
  | .list_beneficiaries _ => .list_beneficiaries
  | .delete_beneficiaries _ _ => .delete_beneficiaries
  | .open_investment _ _ _ => .open_investment
  | .list_investments _ => .list_investments
  | .close_investment _ _ => .close_investment

/-- The `account_id` argument of a call: every tool in `main.py` takes one. -/
def ToolCall.account_id : ToolCall → String
  | .add_beneficiaries a _ _ _ => a
  | .list_beneficiaries a => a
  | .delete_beneficiaries a _ => a
  | .open_investment a _ _ => a
  | .list_investments a => a
  | .close_investment a _ => a

/-- Execute a tool call against the world: dispatch to the tool body from
`main.py` named by the call. -/
def execToolCall (call : ToolCall) (s : WorldState) :
    WorldState × Except String ToolResult :=
  match call with
  | .add_beneficiaries a fn ln rel => add_beneficiaries s a fn ln rel
  | .list_beneficiaries a => list_beneficiaries s a
  | .delete_beneficiaries a bid => delete_beneficiaries s a bid
  | .open_investment a n b => open_investment s a n b
  | .list_investments a => list_investments s a
  | .close_investment a iid => close_investment s a iid

/-- An agent as built in `main.py`: a name, a tool list and a handoff list
(instructions and handoff descriptions carry no behaviour and are omitted). -/
structure Agent where
  name : AgentName
  tools : List ToolName
  handoffs : List AgentName
deriving DecidableEq, Repr

/-- Phase one of graph construction: `beneficiary_agent` as first constructed
in `main.py`, with its three tools and no handoffs yet. -/
def beneficiary_agent0 : Agent :=
  { name := .beneficiary,
    tools := [.list_beneficiaries, .add_beneficiaries, .delete_beneficiaries],
    handoffs := [] }

/-- Phase one of graph construction: `investment_agent` as first constructed
in `main.py`, with its three tools and no handoffs yet. -/
def investment_agent0 : Agent :=
  { name := .investment,
    tools := [.list_investments, .open_investment, .close_investment],
    handoffs := [] }

/-- `supervisor_agent` of `main.py`: no tools of its own (the `login` tool is
commented out), forward handoff edges to both specialists. -/
def supervisor_agent : Agent :=
  { name := .supervisor,
    tools := [],
    handoffs := [.beneficiary, .investment] }

/-- Phase two of graph construction:
`beneficiary_agent.handoffs.append(supervisor_agent)`. -/
def beneficiary_agent : Agent :=
  { beneficiary_agent0 with handoffs := beneficiary_agent0.handoffs ++ [.supervisor] }

/-- Phase two of graph construction:
`investment_agent.handoffs.append(supervisor_agent)`. -/
def investment_agent : Agent :=
  { investment_agent0 with handoffs := investment_agent0.handoffs ++ [.supervisor] }

/-- Look up the (post-construction) agent object behind a name. -/
def agentOf : AgentName → Agent
  | .supervisor => supervisor_agent
  | .beneficiary => beneficiary_agent
  | .investment => investment_agent

/-- The non-fatal failure kinds of spec §7: unknown tool, handoff to an
unreachable target, and a manager failure wrapped with the tool's name and
the underlying cause. -/
inductive EngineError
  | UnknownTool (tool : ToolName)
  | InvalidHandoff (target : AgentName)
  | ToolExecutionError (tool : ToolName) (cause : String)
deriving DecidableEq, Repr

/-- An action the decision oracle may return for one turn (spec §4.3):
emit a message, invoke a tool, or hand the conversation off. -/
inductive Action
  | EmitMessage (text : String)
  | InvokeTool (call : ToolCall)
  | Handoff (target : AgentName)
deriving DecidableEq, Repr

/-- One item of the conversation history that is resubmitted every turn.
The user item's content is optional because the driver in `main.py` appends
the raw `input()` value, which its own guard allows to be `None`. -/
inductive HistoryItem
  | user (content : Option String)
  | message (agent : AgentName) (text : String)
  | tool_call (agent : AgentName) (call : ToolCall)
  | tool_output (agent : AgentName) (tool : ToolName)
      (output : Except EngineError ToolResult)
  | handoff (source : AgentName) (target : AgentName)
  | failure (agent : AgentName) (err : EngineError)
deriving Repr

/-- The conversation state threaded through the loop of `run` in `main.py`:
`current_agent`, `input_items` and the world (context plus manager stores). -/
structure ConvState where
  current_agent : AgentName
  input_items : List HistoryItem
  world : WorldState

/-- The state at the top of `run` in `main.py`:
`current_agent = supervisor_agent`, `input_items = []`,
`context = AccountContext()`, stores empty. -/
def initialConvState : ConvState :=
  { current_agent := .supervisor, input_items := [], world := initialWorld }

/-- Modelled from the spec: `Runner.run` (the conversation engine) comes from
the external `agents` package, not from the sources; spec §4.3 applies the
oracle's actions strictly in order. One action: `EmitMessage` appends an
agent-authored item; `InvokeTool` resolves the tool within the current owning
agent's tool set only (recording `UnknownTool` without touching the world if
absent), runs it, wraps a manager failure as `ToolExecutionError` with the
tool name and cause, and records the call and its result; `Handoff` checks
`target ∈ current.handoffs` (recording `InvalidHandoff` and leaving ownership
unchanged otherwise) and otherwise records the handoff and transfers
ownership. -/
def applyAction (st : ConvState) : Action → ConvState
  | .EmitMessage text =>
    { st with input_items := st.input_items ++ [.message st.current_agent text] }
  | .InvokeTool call =>
    if call.toolName ∈ (agentOf st.current_agent).tools then
      let res := execToolCall call st.world
      let output : Except EngineError ToolResult :=
        match res.2 with
        | Except.ok v => Except.ok v
        | Except.error e => Except.error (.ToolExecutionError call.toolName e)
      { st with
        world := res.1,
        input_items := st.input_items ++
          [.tool_call st.current_agent call,
           .tool_output st.current_agent call.toolName output] }
    else
      { st with input_items := st.input_items ++
          [.failure st.current_agent (.UnknownTool call.toolName)] }
  | .Handoff target =>
    if target ∈ (agentOf st.current_agent).handoffs then
      { st with
        current_agent := target,
        input_items := st.input_items ++ [.handoff st.current_agent target] }
    else
      { st with input_items := st.input_items ++
          [.failure st.current_agent (.InvalidHandoff target)] }

/-- Modelled from the spec: a whole engine run (`Runner.run` over one turn's
oracle output) applies the actions in order to the state whose history already
holds the appended user message; the run's result carries `last_agent`, the
full input list and the mutated context/stores, all in the returned state. -/
def runEngine (st : ConvState) (actions : List Action) : ConvState :=
  actions.foldl applyAction st

/-- One iteration of the `while` body of `run` in `main.py` past the exit
check: append `\x7b"content": user_input, "role": "user"\x7d` to `input_items`,
run the engine, then take `input_items = result.to_input_list()` and
`current_agent = result.last_agent`. -/
def driverTurn (st : ConvState) (user_input : Option String)
    (actions : List Action) : ConvState :=
  runEngine { st with input_items := st.input_items ++ [.user user_input] } actions

/-- Fold `driverTurn` over a whole conversation: each turn's engine run starts
from the agent, history and world returned by the previous one. -/
def runTurns (st : ConvState) : List (Option String × List Action) → ConvState
  | [] => st
  | t :: rest => runTurns (driverTurn st t.1 t.2) rest

/-- The owner-only transition of spec §8: fold each validated `Handoff` over
the owning agent, skipping a handoff whose target is not in the current
owner's handoff set; every other action leaves the owner unchanged. -/
def foldHandoff (owner : AgentName) : Action → AgentName
  | .Handoff target =>
    if target ∈ (agentOf owner).handoffs then target else owner
  | _ => owner

/-- Python's `str.lower`, modelled character-wise. -/
def lowerString (s : String) : String :=
  String.mk (s.data.map Char.toLower)

/-- The lowercasing guard of `run` in `main.py`:
`user_input.lower() if user_input is not None else ""`. -/
def lowerInput : Option String → String
  | some s => lowerString s
  | none => ""

/-- What one iteration of the `while True` loop in `run` does: exit, or
continue with a new state. -/
inductive StepResult
  | exited (st : ConvState)
  | continued (st : ConvState)

/-- One full iteration of the `while True` loop of `run` in `main.py`: read
`user_input`, lowercase it (`None` becoming `""`), `break` if it equals
`"exit"`, `"end"` or `"quit"` — before anything is appended or run —
and otherwise perform the turn. -/
def loopStep (st : ConvState) (user_input : Option String)
    (actions : List Action) : StepResult :=
  let lower_input := lowerInput user_input
  if lower_input = "exit" ∨ lower_input = "end" ∨ lower_input = "quit" then
    .exited st
  else
    .continued (driverTurn st user_input actions)

/-- A conversation state owned by the beneficiary agent, used to exercise a
failing tool call. -/
def demoBeneState : ConvState :=
  { initialConvState with current_agent := .beneficiary }

/-! ## Helper lemmas -/

/-- Applying one action moves the owner exactly as the owner-only fold does. -/
theorem applyAction_current_agent (st : ConvState) (a : Action) :
    (applyAction st a).current_agent = foldHandoff st.current_agent a := by
  cases a with
  | EmitMessage text => rfl
  | InvokeTool call =>
    simp only [applyAction]
    split <;> rfl
  | Handoff target =>
    simp only [applyAction, foldHandoff]
    split <;> rfl

/-- An engine run moves the owner exactly as folding the owner-only
transition over the action list does. -/
theorem runEngine_current_agent (actions : List Action) (st : ConvState) :
    (runEngine st actions).current_agent =
      actions.foldl foldHandoff st.current_agent := by
  induction actions generalizing st with
  | nil => rfl
  | cons a rest ih =>
    show (runEngine (applyAction st a) rest).current_agent = _
    rw [ih (applyAction st a), applyAction_current_agent]
    rfl

/-- A driver turn moves the owner exactly as folding the owner-only
transition over that turn's actions does. -/
theorem driverTurn_current_agent (st : ConvState) (user_input : Option String)
    (actions : List Action) :
    (driverTurn st user_input actions).current_agent =
      actions.foldl foldHandoff st.current_agent :=
  runEngine_current_agent actions _

/-- Applying one action only ever appends to the history. -/
theorem applyAction_input_items (st : ConvState) (a : Action) :
    ∃ tail, (applyAction st a).input_items = st.input_items ++ tail := by
  cases a with
  | EmitMessage text => exact ⟨_, rfl⟩
  | InvokeTool call =>
    simp only [applyAction]
    split
    · exact ⟨_, rfl⟩
    · exact ⟨_, rfl⟩
  | Handoff target =>
    simp only [applyAction]
    split
    · exact ⟨_, rfl⟩
    · exact ⟨_, rfl⟩

/-- An engine run only ever appends to the history it was given. -/
theorem runEngine_input_items (actions : List Action) (st : ConvState) :
    ∃ tail, (runEngine st actions).input_items = st.input_items ++ tail := by
  induction actions generalizing st with
  | nil => exact ⟨[], (List.append_nil _).symm⟩
  | cons a rest ih =>
    obtain ⟨t1, h1⟩ := applyAction_input_items st a
    obtain ⟨t2, h2⟩ := ih (applyAction st a)
    exact ⟨t1 ++ t2, by
      show (runEngine (applyAction st a) rest).input_items = _
      rw [h2, h1, List.append_assoc]⟩

/-! ## Claim theorems -/

/-- C1: the current owning agent after any sequence of turns equals the fold
of the validated handoffs over the supervisor (each turn's engine run starts
from the previous run's `last_agent`), and a handoff whose target is not in
the current agent's handoff set produces an `InvalidHandoff` event and leaves
ownership unchanged. -/
theorem current_owner_is_handoff_fold :
    (∀ turns : List (Option String × List Action),
        (runTurns initialConvState turns).current_agent =
          ((turns.map Prod.snd).flatten).foldl foldHandoff AgentName.supervisor)
  ∧ (∀ (st : ConvState) (target : AgentName),
        target ∉ (agentOf st.current_agent).handoffs →
        applyAction st (Action.Handoff target) =
          { st with input_items := st.input_items ++
              [.failure st.current_agent (.InvalidHandoff target)] }) := by
  constructor
  · have key : ∀ (turns : List (Option String × List Action)) (st : ConvState),
        (runTurns st turns).current_agent =
          ((turns.map Prod.snd).flatten).foldl foldHandoff st.current_agent := by
      intro turns
      induction turns with
      | nil => intro st; rfl
      | cons t rest ih =>
        intro st
        show (runTurns (driverTurn st t.1 t.2) rest).current_agent = _
        rw [ih (driverTurn st t.1 t.2), driverTurn_current_agent]
        simp [List.foldl_append]
    intro turns
    exact key turns initialConvState
  · intro st target h
    simp only [applyAction]
    rw [if_neg h]

/-- C1 witness: one turn whose single action is a valid handoff to the
investment agent makes it the owner, and a self-handoff proposed from the
beneficiary agent (whose handoff set is only the supervisor) is recorded as
`InvalidHandoff` and leaves the state's owner unchanged. -/
theorem current_owner_is_handoff_fold_witness :
    (runTurns initialConvState
        [(some "open an account", [Action.Handoff AgentName.investment])]).current_agent
      = AgentName.investment
  ∧ applyAction demoBeneState (Action.Handoff AgentName.beneficiary) =
      { demoBeneState with input_items := demoBeneState.input_items ++
          [.failure AgentName.beneficiary
            (.InvalidHandoff AgentName.beneficiary)] } :=
  ⟨(current_owner_is_handoff_fold.1
      [(some "open an account", [Action.Handoff AgentName.investment])]).trans (by decide),
   current_owner_is_handoff_fold.2 demoBeneState AgentName.beneficiary (by decide)⟩

/-- C2: every account-scoped tool invocation sets the shared
`AccountContext.account_id` to its `account_id` argument (successful or not,
whichever agent is current), and no other action kind touches the world, so
the value persists until a later tool call overwrites it. -/
theorem tool_call_sets_context_account_id :
    (∀ (call : ToolCall) (s : WorldState),
        ((execToolCall call s).1).context.account_id = some call.account_id)
  ∧ (∀ (st : ConvState) (text : String),
        (applyAction st (Action.EmitMessage text)).world = st.world)
  ∧ (∀ (st : ConvState) (target : AgentName),
        (applyAction st (Action.Handoff target)).world = st.world) := by
  refine ⟨fun call s => ?_, fun st text => rfl, fun st target => ?_⟩
  · cases call with
    | add_beneficiaries a fn ln rel => rfl
    | list_beneficiaries a => rfl
    | delete_beneficiaries a bid =>
      simp only [execToolCall, delete_beneficiaries]
      split <;> rfl
    | open_investment a n b => rfl
    | list_investments a => rfl
    | close_investment a iid =>
      simp only [execToolCall, close_investment]
      split <;> rfl
  · simp only [applyAction]
    split <;> rfl

/-- C3: a driver turn first appends the user message and then only appends
engine items after it: the history after the turn starts with exactly the
history before the turn followed by the user message (so no earlier item
changes), and is strictly longer than the history before. -/
theorem history_append_only (st : ConvState) (user_input : Option String)
    (actions : List Action) :
    (driverTurn st user_input actions).input_items.take (st.input_items.length + 1)
      = st.input_items ++ [HistoryItem.user user_input]
  ∧ st.input_items.length + 1 ≤ (driverTurn st user_input actions).input_items.length := by
  obtain ⟨tail, htail⟩ := runEngine_input_items actions
    { st with input_items := st.input_items ++ [.user user_input] }
  have hlen : st.input_items.length + 1 = (st.input_items ++ [HistoryItem.user user_input]).length := by
    simp
  constructor
  · show (runEngine _ actions).input_items.take _ = _
    rw [htail, hlen, List.take_left]
  · show st.input_items.length + 1 ≤ (runEngine _ actions).input_items.length
    rw [htail, hlen]
    simp

/-- C4: after the two-phase construction, the supervisor's handoff set is
exactly the two specialists, each specialist's handoff set is exactly the
supervisor, the supervisor is the only agent with more than one outgoing
edge, and no agent can hand off to itself. -/
theorem handoff_graph_shape :
    (∀ t : AgentName, t ∈ supervisor_agent.handoffs ↔
        (t = AgentName.beneficiary ∨ t = AgentName.investment))
  ∧ (∀ t : AgentName, t ∈ beneficiary_agent.handoffs ↔ t = AgentName.supervisor)
  ∧ (∀ t : AgentName, t ∈ investment_agent.handoffs ↔ t = AgentName.supervisor)
  ∧ (∀ a : AgentName, 1 < (agentOf a).handoffs.length ↔ a = AgentName.supervisor)
  ∧ (∀ a : AgentName, a ∉ (agentOf a).handoffs) := by decide

/-- C5: a fresh conversation starts owned by the supervisor, with an empty
history and a newly created `AccountContext` whose `account_id` is unset. -/
theorem fresh_conversation_initial_state :
    initialConvState.current_agent = AgentName.supervisor
  ∧ initialConvState.input_items = []
  ∧ initialConvState.world.context.account_id = none :=
  ⟨rfl, rfl, rfl⟩

/-- C6: over an account with no beneficiaries, `add_beneficiaries` followed by
`list_beneficiaries` yields exactly one record carrying the three supplied
fields and the freshly generated id, and deleting that id and listing again
yields the empty sequence. -/
theorem beneficiary_round_trip (acct : String) (s : WorldState)
    (h : s.beneficiaries_mgr.store acct = []) :
    ((list_beneficiaries (add_beneficiaries s acct "A" "B" "spouse").1 acct).2
      = Except.ok (ToolResult.bene_list
          [⟨s.beneficiaries_mgr.next_id, "A", "B", "spouse"⟩]))
  ∧ ((list_beneficiaries
        (delete_beneficiaries
          (list_beneficiaries (add_beneficiaries s acct "A" "B" "spouse").1 acct).1
          acct s.beneficiaries_mgr.next_id).1 acct).2
      = Except.ok (ToolResult.bene_list [])) := by
  constructor
  · simp [add_beneficiaries, list_beneficiaries,
      BeneficiariesManager.add_beneficiary, BeneficiariesManager.list_beneficiaries, h]
  · simp [add_beneficiaries, list_beneficiaries, delete_beneficiaries,
      BeneficiariesManager.add_beneficiary, BeneficiariesManager.list_beneficiaries,
      BeneficiariesManager.delete_beneficiary, h]

/-- C6 witness: the round trip evaluated on the initial world and the account
id `"123"`, whose fresh id is `0`. -/
theorem beneficiary_round_trip_witness :
    ((list_beneficiaries (add_beneficiaries initialWorld "123" "A" "B" "spouse").1 "123").2
      = Except.ok (ToolResult.bene_list [⟨0, "A", "B", "spouse"⟩]))
  ∧ ((list_beneficiaries
        (delete_beneficiaries
          (list_beneficiaries (add_beneficiaries initialWorld "123" "A" "B" "spouse").1 "123").1
          "123" 0).1 "123").2
      = Except.ok (ToolResult.bene_list [])) :=
  beneficiary_round_trip "123" initialWorld rfl

/-- C7: when a tool resolvable by the current agent fails in its manager
collaborator, the engine records the call and a failed result wrapped as
`ToolExecutionError` with the tool name and the underlying cause (never the
raw manager error), leaves the owning agent unchanged, and processing
continues with the remaining actions. -/
theorem tool_error_wrapped (st : ConvState) (call : ToolCall) (e : String)
    (hmem : call.toolName ∈ (agentOf st.current_agent).tools)
    (herr : (execToolCall call st.world).2 = Except.error e) :
    applyAction st (Action.InvokeTool call) =
      { st with
        world := (execToolCall call st.world).1,
        input_items := st.input_items ++
          [.tool_call st.current_agent call,
           .tool_output st.current_agent call.toolName
             (Except.error (.ToolExecutionError call.toolName e))] }
  ∧ ∀ rest : List Action,
      runEngine st (Action.InvokeTool call :: rest)
        = runEngine (applyAction st (Action.InvokeTool call)) rest := by
  refine ⟨?_, fun rest => rfl⟩
  simp only [applyAction]
  rw [if_pos hmem, herr]

/-- C7 witness: deleting a non-existent beneficiary from the beneficiary
agent's conversation records a `ToolExecutionError` wrapping the manager's
cause and leaves the rest of the state unchanged. -/
theorem tool_error_wrapped_witness :
    applyAction demoBeneState
        (Action.InvokeTool (ToolCall.delete_beneficiaries "123" 0)) =
      { demoBeneState with
        world := (execToolCall (ToolCall.delete_beneficiaries "123" 0)
          demoBeneState.world).1,
        input_items := demoBeneState.input_items ++
          [.tool_call AgentName.beneficiary (ToolCall.delete_beneficiaries "123" 0),
           .tool_output AgentName.beneficiary ToolName.delete_beneficiaries
             (Except.error (.ToolExecutionError ToolName.delete_beneficiaries
               "beneficiary not found"))] } :=
  (tool_error_wrapped demoBeneState (ToolCall.delete_beneficiaries "123" 0)
    "beneficiary not found" (by decide) rfl).1

/-- C8: whenever a tool invocation returns a value, that value is structured
(a sequence of records) exactly when the tool is one of the two read tools;
the four mutating tools return no value on success. -/
theorem tool_return_shape (call : ToolCall) (s : WorldState) (r : ToolResult)
    (h : (execToolCall call s).2 = Except.ok r) :
    r.isStructured = call.toolName.isRead := by
  cases call with
  | add_beneficiaries a fn ln rel =>
    have h2 : Except.ok ToolResult.none_result = Except.ok r := h
    injection h2 with h3
    rw [← h3]; rfl
  | list_beneficiaries a =>
    have h2 : (list_beneficiaries s a).2 = Except.ok r := h
    simp only [list_beneficiaries] at h2
    injection h2 with h3
    rw [← h3]; rfl
  | delete_beneficiaries a bid =>
    have h2 : (delete_beneficiaries s a bid).2 = Except.ok r := h
    simp only [delete_beneficiaries] at h2
    split at h2
    · injection h2 with h3; rw [← h3]; rfl
    · exact absurd h2 (by simp)
  | open_investment a n b =>
    have h2 : Except.ok ToolResult.none_result = Except.ok r := h
    injection h2 with h3
    rw [← h3]; rfl
  | list_investments a =>
    have h2 : (list_investments s a).2 = Except.ok r := h
    simp only [list_investments] at h2
    injection h2 with h3
    rw [← h3]; rfl
  | close_investment a iid =>
    have h2 : (close_investment s a iid).2 = Except.ok r := h
    simp only [close_investment] at h2
    split at h2
    · injection h2 with h3; rw [← h3]; rfl
    · exact absurd h2 (by simp)

/-- C8 witness: listing the beneficiaries of the initial world succeeds with
the structured (empty) sequence, and the shape equation holds there. -/
theorem tool_return_shape_witness :
    (execToolCall (ToolCall.list_beneficiaries "123") initialWorld).2
      = Except.ok (ToolResult.bene_list [])
  ∧ (ToolResult.bene_list []).isStructured
      = (ToolCall.list_beneficiaries "123").toolName.isRead :=
  ⟨rfl, tool_return_shape (ToolCall.list_beneficiaries "123") initialWorld
    (ToolResult.bene_list []) rfl⟩

/-- C9: the beneficiary tools are exactly the beneficiary agent's tool set,
the investment tools exactly the investment agent's, the supervisor holds no
tools, phase two of construction changes no tool set, and a tool held by one
agent is held by no other. -/
theorem tool_ownership_partition :
    (∀ t : ToolName, t ∈ beneficiary_agent.tools ↔
        (t = ToolName.list_beneficiaries ∨ t = ToolName.add_beneficiaries
          ∨ t = ToolName.delete_beneficiaries))
  ∧ (∀ t : ToolName, t ∈ investment_agent.tools ↔
        (t = ToolName.list_investments ∨ t = ToolName.open_investment
          ∨ t = ToolName.close_investment))
  ∧ supervisor_agent.tools = []
  ∧ beneficiary_agent.tools = beneficiary_agent0.tools
  ∧ investment_agent.tools = investment_agent0.tools
  ∧ (∀ (t : ToolName) (a b : AgentName),
        (t ∈ (agentOf a).tools ∧ t ∈ (agentOf b).tools)
          ↔ (a = b ∧ t ∈ (agentOf a).tools)) := by decide

/-- C10: one iteration of the driver loop exits exactly when the lowercased
input (a `None` input lowercasing to the empty string) is `"exit"`, `"end"`
or `"quit"`; an exiting iteration returns the state untouched (nothing
appended, no engine run), and every other input — the `None` and empty
inputs included — is appended and processed through the turn. -/
theorem exit_guard (st : ConvState) (user_input : Option String)
    (actions : List Action) :
    ((lowerInput user_input = "exit" ∨ lowerInput user_input = "end"
        ∨ lowerInput user_input = "quit")
      → loopStep st user_input actions = StepResult.exited st)
  ∧ (¬(lowerInput user_input = "exit" ∨ lowerInput user_input = "end"
        ∨ lowerInput user_input = "quit")
      → loopStep st user_input actions
          = StepResult.continued (driverTurn st user_input actions))
  ∧ lowerInput none = ""
  ∧ loopStep st none actions = StepResult.continued (driverTurn st none actions) := by
  refine ⟨fun h => ?_, fun h => ?_, rfl, ?_⟩
  · simp only [loopStep]
    rw [if_pos h]
  · simp only [loopStep]
    rw [if_neg h]
  · simp only [loopStep, lowerInput]
    rw [if_neg (by decide)]

/-- C10 witness: `"Exit"` lowercases into the exit set and stops the loop
with the state untouched, while `"hello"` does not and yields a full turn. -/
theorem exit_guard_witness :
    loopStep initialConvState (some "Exit") [] = StepResult.exited initialConvState
  ∧ loopStep initialConvState (some "hello") []
      = StepResult.continued (driverTurn initialConvState (some "hello") []) :=
  ⟨(exit_guard initialConvState (some "Exit") []).1 (by decide),
   (exit_guard initialConvState (some "hello") []).2.1 (by decide)⟩

end OaiSupervisor
